import Mathlib

/-!
Verification of the OPAL nginx/ceph fetch provider
(src/opal_fetcher_ceph/provider.py) against its specification.

The development shallowly embeds the provider's fetch path:

* `fetch_tar_file_data` (provider.py lines 132-172): the chunked download
  loop, the in-memory buffer, `tarfile.open(mode="r:gz")`, the `.json`
  member selection and extraction.  The Python `while True:` body either
  `break`s (empty first chunk), `return`s, or raises on its very first
  iteration - the stream close, the seek, the tar open and the extraction
  are all mis-indented inside the loop - so the faithful embedding is
  straight-line code operating on the first `read(16384)` chunk.  The
  function returns its result together with a trace of resource events so
  that ordering and open/close-count properties can be stated.

* `_fetch_` (lines 109-122) and `_process_` (lines 124-130): `_fetch_`
  calls the async method `fetch_tar_file_data` without `await`, so it
  returns the coroutine object; Python values visible at that interface
  are modelled by `PyVal`, and `json.loads` raises `TypeError` on
  anything that is not `str`/`bytes`.

* `__aenter__`/`__aexit__` (lines 85-107): the asyncpg connect call is
  commented out, so `self._connection` (and consequently
  `self._transaction`) is never assigned; reading an unassigned attribute
  raises `AttributeError`.  Attribute state is an `Option`-valued record.

Library behaviour is modelled concretely and executably:

* the gzip-compressed tar container is modelled as a length-prefixed
  byte format with the gzip magic `31, 139`: a well-formed archive
  decodes to its member list, and truncated or corrupted input fails to
  decode (as `tarfile.open`/`getnames` raise `ReadError`/`EOFError` on
  truncated gzip data).  Bytes are `Nat`s; member contents abstract one
  char per byte.
* `tarfile` member lookup by name (`extractfile(name)` -> `getmember`)
  returns the LAST member bearing the name, per the documented CPython
  behaviour, which matters when member names repeat.
* `json.dumps`/`json.loads` are modelled by an executable printer and a
  fuel-indexed recursive-descent parser over a `Json` inductive covering
  null, booleans, integers, strings, arrays and objects.  Non-integer
  numbers are omitted (they are floating point in Python) and the parser
  is strict about whitespace; neither restriction is exercised by any
  claim.
-/

/-- Python-level failure kinds relevant to the fetch path. -/
inductive PyErr where
  | transportError
  | formatError
  | indexError
  | keyError
  | typeError
  | parseError
  | attributeError
  deriving DecidableEq

/-! ### Little-endian digit codec (kernel-computable, used by the archive model) -/

/-- Little-endian digits of `n` in base `b`, with explicit fuel so the
definition is structural and kernel-reducible. -/
def digitsAux (b : Nat) : Nat → Nat → List Nat
  | 0, _ => []
  | _ + 1, 0 => []
  | fuel + 1, n + 1 => (n + 1) % b :: digitsAux b fuel ((n + 1) / b)

/-- Little-endian base-`b` digits of `n`. -/
def natDigits (b n : Nat) : List Nat := digitsAux b n n

/-- Value of a little-endian digit list in base `b`. -/
def valDigits (b : Nat) : List Nat → Nat
  | [] => 0
  | d :: ds => d + b * valDigits b ds

/-! ### Abstract gzip-tar container codec -/

/-- One member of a tar archive: a stored path name and its content bytes. -/
structure TarMember where
  name : String
  content : List Nat
  deriving DecidableEq

/-- Length-prefixed encoding of a natural number: digit count then
little-endian base-256 digits. -/
def encNat (n : Nat) : List Nat :=
  (natDigits 256 n).length :: natDigits 256 n

/-- Decode a length-prefixed natural number; fails on truncated input. -/
def decNat : List Nat → Option (Nat × List Nat)
  | [] => none
  | len :: rest =>
    if len ≤ rest.length then
      some (valDigits 256 (rest.take len), rest.drop len)
    else none

/-- Length-prefixed byte block. -/
def encBlock (bs : List Nat) : List Nat := encNat bs.length ++ bs

/-- Decode a length-prefixed byte block; fails on truncated input. -/
def decBlock (input : List Nat) : Option (List Nat × List Nat) :=
  match decNat input with
  | some (len, rest) =>
    if len ≤ rest.length then some (rest.take len, rest.drop len) else none
  | none => none

/-- Encoding of one archive member: name block then content block. -/
def encMember (m : TarMember) : List Nat :=
  encBlock (m.name.data.map Char.toNat) ++ encBlock m.content

/-- Decode one archive member. -/
def decMember (bs : List Nat) : Option (TarMember × List Nat) :=
  match decBlock bs with
  | some (nameBytes, r1) =>
    match decBlock r1 with
    | some (content, r2) =>
      some (⟨String.mk (nameBytes.map Char.ofNat), content⟩, r2)
    | none => none
  | none => none

/-- Decode exactly `count` members consuming the whole input. -/
def decMembers : Nat → List Nat → Option (List TarMember)
  | 0, bs => if bs.isEmpty then some [] else none
  | k + 1, bs =>
    match decMember bs with
    | some (m, rest) =>
      match decMembers k rest with
      | some ms => some (m :: ms)
      | none => none
    | none => none

/-- Serialise a member list into archive bytes: gzip magic, then a
length-prefixed payload holding the member count and the members.  The
payload length plays the role of the gzip size/CRC trailer: decoding
fails when the byte stream is truncated. -/
def tarEncode (ms : List TarMember) : List Nat :=
  31 :: 139 :: encBlock (encNat ms.length ++ (ms.map encMember).flatten)

/-- Model of `tarfile.open(mode="r:gz")` + full member enumeration on a
byte buffer: `none` models `tarfile.ReadError` (non-gzip magic, truncated
or corrupted data). -/
def tarDecode (bs : List Nat) : Option (List TarMember) :=
  match bs with
  | m1 :: m2 :: rest =>
    if m1 = 31 ∧ m2 = 139 then
      match decBlock rest with
      | some (payload, after) =>
        if after.isEmpty then
          match decNat payload with
          | some (count, body) => decMembers count body
          | none => none
        else none
      | none => none
    else none
  | _ => none

/-- Model of `TarFile.getmember`, used by `extractfile(name)`: CPython
scans the member list backwards, so the LAST member bearing the name is
returned ("its last occurrence is assumed to be the most up-to-date
version"). -/
def getmember (ms : List TarMember) (n : String) : Option TarMember :=
  ms.reverse.find? (fun m => m.name == n)

/-- Model of `str.endswith(".json")` on a member name. -/
def endsWithJson (name : String) : Bool :=
  name.data.drop (name.data.length - 5) == ".json".data

/-! ### JSON values, printer (json.dumps) and parser (json.loads) -/

/-- JSON values (numbers restricted to integers; non-integer JSON numbers
are floating point in Python and out of scope). -/
inductive Json where
  | null : Json
  | bool (b : Bool) : Json
  | num (n : Int) : Json
  | str (s : String) : Json
  | arr (es : List Json) : Json
  | obj (fs : List (String × Json)) : Json

/-- The opening-brace character, written via its code point. -/
def obraceChar : Char := Char.ofNat 123

/-- The closing-brace character, written via its code point. -/
def cbraceChar : Char := Char.ofNat 125

/-- JSON string escaping of one character (quote and backslash). -/
def escChar (c : Char) : List Char :=
  if c = '"' then [ '\\', c ]
  else if c = '\\' then [ '\\', c ]
  else [c]

/-- JSON string escaping of a character list. -/
def escList : List Char → List Char
  | [] => []
  | c :: cs => escChar c ++ escList cs

/-- Decimal digit character. -/
def digitChar (d : Nat) : Char := Char.ofNat (48 + d)

/-- Decimal representation of a natural number. -/
def natToChars (n : Nat) : List Char :=
  if n = 0 then [ '0' ] else ((natDigits 10 n).reverse.map digitChar)

mutual
/-- Model of `json.dumps` (without whitespace), producing characters. -/
def printJson : Json → List Char
  | .null => "null".data
  | .bool true => "true".data
  | .bool false => "false".data
  | .num n => if n < 0 then '-' :: natToChars n.natAbs else natToChars n.natAbs
  | .str s => '"' :: escList s.data ++ [ '"' ]
  | .arr es => '[' :: printArrItems es ++ [ ']' ]
  | .obj fs => obraceChar :: printObjItems fs ++ [cbraceChar]
/-- Comma-separated array items. -/
def printArrItems : List Json → List Char
  | [] => []
  | [e] => printJson e
  | e :: e2 :: es => printJson e ++ ',' :: printArrItems (e2 :: es)
/-- Comma-separated object fields. -/
def printObjItems : List (String × Json) → List Char
  | [] => []
  | [(k, v)] => '"' :: escList k.data ++ '"' :: ':' :: printJson v
  | (k, v) :: f2 :: fs =>
    '"' :: escList k.data ++ '"' :: ':' :: printJson v ++ ',' :: printObjItems (f2 :: fs)
end

/-- Unescape one character after a backslash. -/
def unescChar (c : Char) : Option Char :=
  if c = '"' then some '"'
  else if c = '\\' then some '\\'
  else if c = '/' then some '/'
  else if c = 'n' then some (Char.ofNat 10)
  else if c = 't' then some (Char.ofNat 9)
  else if c = 'r' then some (Char.ofNat 13)
  else none

/-- Parse a JSON string body (after the opening quote) up to the closing
quote. -/
def parseStrAux : List Char → Option (List Char × List Char)
  | [] => none
  | c :: rest =>
    if c = '"' then some ([], rest)
    else if c = '\\' then
      match rest with
      | [] => none
      | e :: rest2 =>
        match unescChar e with
        | some c2 =>
          match parseStrAux rest2 with
          | some (cs, r) => some (c2 :: cs, r)
          | none => none
        | none => none
    else
      match parseStrAux rest with
      | some (cs, r) => some (c :: cs, r)
      | none => none

/-- Parse a run of decimal digits into a natural number. -/
def parseNat (input : List Char) : Option (Nat × List Char) :=
  let ds := input.takeWhile Char.isDigit
  if ds.isEmpty then none
  else some (ds.foldl (fun a c => 10 * a + (c.toNat - 48)) 0,
             input.dropWhile Char.isDigit)

mutual
/-- Fuel-indexed recursive-descent JSON value parser. -/
def parseVal : Nat → List Char → Option (Json × List Char)
  | 0, _ => none
  | _ + 1, [] => none
  | fuel + 1, c :: rest =>
    if c = 'n' then
      match rest with
      | 'u' :: 'l' :: 'l' :: r => some (.null, r)
      | _ => none
    else if c = 't' then
      match rest with
      | 'r' :: 'u' :: 'e' :: r => some (.bool true, r)
      | _ => none
    else if c = 'f' then
      match rest with
      | 'a' :: 'l' :: 's' :: 'e' :: r => some (.bool false, r)
      | _ => none
    else if c = '"' then
      match parseStrAux rest with
      | some (cs, r) => some (.str (String.mk cs), r)
      | none => none
    else if c = '[' then
      parseArrBody fuel rest
    else if c = obraceChar then
      parseObjBody fuel rest
    else if c = '-' then
      match parseNat rest with
      | some (n, r) => some (.num (-(n : Int)), r)
      | none => none
    else if c.isDigit then
      match parseNat (c :: rest) with
      | some (n, r) => some (.num (n : Int), r)
      | none => none
    else none
/-- Parse array items after the opening bracket. -/
def parseArrBody : Nat → List Char → Option (Json × List Char)
  | 0, _ => none
  | _ + 1, [] => none
  | fuel + 1, c :: rest =>
    if c = ']' then some (.arr [], rest)
    else
      match parseVal fuel (c :: rest) with
      | some (v, r1) =>
        match r1 with
        | [] => none
        | c2 :: r2 =>
          if c2 = ',' then
            match parseArrBody fuel r2 with
            | some (.arr vs, r3) => some (.arr (v :: vs), r3)
            | _ => none
          else if c2 = ']' then some (.arr [v], r2)
          else none
      | none => none
/-- Parse object fields after the opening brace. -/
def parseObjBody : Nat → List Char → Option (Json × List Char)
  | 0, _ => none
  | _ + 1, [] => none
  | fuel + 1, c :: rest =>
    if c = cbraceChar then some (.obj [], rest)
    else if c = '"' then
      match parseStrAux rest with
      | some (kcs, r1) =>
        match r1 with
        | [] => none
        | c2 :: r2 =>
          if c2 = ':' then
            match parseVal fuel r2 with
            | some (v, r3) =>
              match r3 with
              | [] => none
              | c4 :: r4 =>
                if c4 = ',' then
                  match parseObjBody fuel r4 with
                  | some (.obj fs, r5) => some (.obj ((String.mk kcs, v) :: fs), r5)
                  | _ => none
                else if c4 = cbraceChar then
                  some (.obj [(String.mk kcs, v)], r4)
                else none
            | none => none
          else none
      | none => none
    else none
end

/-- Model of `json.loads` on a character sequence: parse one value and
require the whole input to be consumed. -/
def parseJsonChars (cs : List Char) : Option Json :=
  match parseVal (2 * cs.length + 2) cs with
  | some (j, []) => some j
  | _ => none

/-- Parser-continuation guard: the lemmas about parsing a printed value
followed by `rest` require `rest` not to start with a digit (otherwise a
printed number would absorb it). -/
def restOk : List Char → Bool
  | [] => true
  | c :: _ => ! c.isDigit

mutual
/-- Parser-fuel measure of a JSON value. -/
def jm : Json → Nat
  | .null => 1
  | .bool _ => 1
  | .num _ => 1
  | .str _ => 1
  | .arr es => 2 + jmA es
  | .obj fs => 2 + jmO fs
/-- Parser-fuel measure of an array item list. -/
def jmA : List Json → Nat
  | [] => 0
  | e :: es => 1 + jm e + jmA es
/-- Parser-fuel measure of an object field list. -/
def jmO : List (String × Json) → Nat
  | [] => 0
  | f :: fs => 1 + jm f.2 + jmO fs
end

/-! ### The fetch routine (provider.py lines 132-172) -/

/-- Outcome of `urllib.request.urlopen(url)`: a response body, or a
transport failure (`URLError`) while opening/reading. -/
inductive NetResponse where
  | ok (body : List Nat) : NetResponse
  | failure : NetResponse

/-- Resource events performed by one `fetch_tar_file_data` call, in
order. -/
inductive Ev where
  | urlopenCall (url : String)
  | bufferCreate
  | readChunk (bs : List Nat)
  | streamClose
  | seekZero
  | tarOpenCall (buffered : List Nat)
  | tarClose
  | bufferClose
  deriving DecidableEq

/-- The read size used by the download loop: `ftpstream.read(16384)`. -/
def CHUNK : Nat := 16384

/-- Embedding of `NginxCephFetchProvider.fetch_tar_file_data` (lines
132-172), returning the Python-level outcome plus the trace of resource
events.  Control flow of the source: `urlopen`; `BytesIO()`; then
`while True:` whose body reads a chunk and, unless the chunk is empty
(`break`, after which the function falls off its end and returns `None`),
writes it, closes the stream, seeks to 0, opens the buffer as a gzip tar,
filters `getnames()` for names ending in `.json`, indexes `[0]`,
extracts, closes the tar and the buffer, and returns - so the body never
runs a second iteration, and everything after the first `read` sees only
the first chunk. -/
def fetch_tar_file_data (net : String → NetResponse) (url : String) :
    Except PyErr (Option (List Nat)) × List Ev :=
  match net url with
  | .failure => (.error .transportError, [ .urlopenCall url ])
  | .ok body =>
    let s := body.take CHUNK
    if s.isEmpty then
      (.ok none, [ .urlopenCall url, .bufferCreate, .readChunk s ])
    else
      let ev := [ .urlopenCall url, .bufferCreate, .readChunk s,
                  .streamClose, .seekZero, .tarOpenCall s ]
      match tarDecode s with
      | none => (.error .formatError, ev)
      | some members =>
        let tfile_data := (members.map (fun m => m.name)).filter endsWithJson
        match tfile_data with
        | [] => (.error .indexError, ev)
        | firstName :: _ =>
          match getmember members firstName with
          | none => (.error .keyError, ev)
          | some m => (.ok (some m.content), ev ++ [ .tarClose, .bufferClose ])

/-- Count the `urlopen` calls in a trace. -/
def countUrlopen (evs : List Ev) : Nat :=
  evs.countP (fun e => match e with | .urlopenCall _ => true | _ => false)

/-- Count the stream closes in a trace. -/
def countStreamClose (evs : List Ev) : Nat :=
  evs.countP (fun e => match e with | .streamClose => true | _ => false)

/-- Count the buffer creations in a trace. -/
def countBufferCreate (evs : List Ev) : Nat :=
  evs.countP (fun e => match e with | .bufferCreate => true | _ => false)

/-- Count the buffer closes in a trace. -/
def countBufferClose (evs : List Ev) : Nat :=
  evs.countP (fun e => match e with | .bufferClose => true | _ => false)

/-- Count the `tarfile.open` calls in a trace. -/
def countTarOpen (evs : List Ev) : Nat :=
  evs.countP (fun e => match e with | .tarOpenCall _ => true | _ => false)

/-- Count the tar-reader closes in a trace. -/
def countTarClose (evs : List Ev) : Nat :=
  evs.countP (fun e => match e with | .tarClose => true | _ => false)

/-- The declared-but-never-applied retry policy (provider.py lines
65-70): random exponential wait, stop after 10 attempts, retry unless
the exception is a `DataError`, re-raise at the end.  No call site
references it. -/
structure RetryConfigModel where
  waitStrategy : String
  stopAfterAttempts : Nat
  retryUnlessDataError : Bool
  reraise : Bool
  deriving DecidableEq

/-- `NginxCephFetchProvider.RETRY_CONFIG`. -/
def RETRY_CONFIG : RetryConfigModel :=
  ⟨"wait_random_exponential", 10, true, true⟩

/-! ### `_fetch_`, `_process_` and the provider lifecycle -/

/-- Python values flowing between `_fetch_` and `_process_`: `None`, a
`bytes` object, or the coroutine object produced by calling an `async
def` without `await`. -/
inductive PyVal where
  | noneV : PyVal
  | bytes (bs : List Nat) : PyVal
  | coroutine (url : String) : PyVal
  deriving DecidableEq

/-- Model of `json.loads`: accepts `bytes` (decoded to characters, one
byte per character in this model) and parses JSON; any other argument
(None, a coroutine object) raises `TypeError`; unparsable text raises
`json.JSONDecodeError`, a `ParseError`. -/
def json_loads (v : PyVal) : Except PyErr Json :=
  match v with
  | .bytes bs =>
    match parseJsonChars (bs.map Char.ofNat) with
    | some j => .ok j
    | none => .error .parseError
  | _ => .error .typeError

/-- Result of one `_fetch_` invocation: the returned value, whether the
incomplete-config warning was logged, and whether `fetch_tar_file_data`
was invoked (i.e. its coroutine was created). -/
structure FetchMethodResult where
  retval : PyVal
  warned : Bool
  startedFetch : Bool
  deriving DecidableEq

/-- Embedding of `NginxCephFetchProvider._fetch_` (lines 109-122): if
`self._event.url is None`, log a warning and return `None`; otherwise
`data = self.fetch_tar_file_data(self._url)` WITHOUT `await`, which
creates and returns the coroutine object (the network is never touched
by `_fetch_` itself).  The `None` check does not treat the empty string
as absent. -/
def fetchMethod (url : Option String) : FetchMethodResult :=
  match url with
  | none => ⟨.noneV, true, false⟩
  | some u => ⟨.coroutine u, false, true⟩

/-- Embedding of `NginxCephFetchProvider._process_` (lines 124-130):
`return json.loads(data)`. -/
def processMethod (data : PyVal) : Except PyErr Json := json_loads data

/-- Optional connection parameters carried by the fetcher config; the
`__aenter__` template reads `self._event.config.connection_params`. -/
structure ConnParamsModel where
  params : List (String × String)
  deriving DecidableEq

/-- Model of `NginxCephFetcherConfig` as `__aenter__` uses it. -/
structure CephConfigModel where
  fetcher : String
  connection_params : Option ConnParamsModel
  deriving DecidableEq

/-- Attribute state of a provider instance: `conn` is the
`self._connection` attribute and `tx` the `self._transaction` attribute;
`none` means the attribute was never assigned, so reading it raises
`AttributeError`. -/
structure ProviderStateM where
  conn : Option Unit
  tx : Option Unit
  deriving DecidableEq

/-- State after `__init__` (lines 72-76): neither `self._connection` nor
`self._transaction` is assigned. -/
def initProviderState : ProviderStateM := ⟨none, none⟩

/-- Embedding of `__aenter__` (lines 85-99): reads
`self._event.config.connection_params` (an `AttributeError` when the
event's config is `None`), then - the `asyncpg.connect` line being
commented out - evaluates `self._connection.transaction(readonly=True)`,
which dereferences the unassigned `_connection` attribute and raises
`AttributeError`; only if `_connection` were somehow assigned would
`self._transaction` be set. -/
def aenter (cfg : Option CephConfigModel) (st : ProviderStateM) :
    Except PyErr ProviderStateM :=
  match cfg with
  | none => .error .attributeError
  | some _ =>
    match st.conn with
    | none => .error .attributeError
    | some _ => .ok ⟨st.conn, some ()⟩

/-- Embedding of `__aexit__` (lines 101-107): reads `self._transaction`
(raising `AttributeError` when it was never assigned), then reads
`self._connection` likewise. -/
def aexit (st : ProviderStateM) : Except PyErr Unit :=
  match st.tx with
  | none => .error .attributeError
  | some _ =>
    match st.conn with
    | none => .error .attributeError
    | some _ => .ok ()

/-! ### The claimed fetch-then-process pipeline -/

/-- Build the well-formed single-member archive holding the printed JSON
value as its sole `.json` member - the encoding step of the round-trip
claim. -/
def buildArchive (j : Json) : List Nat :=
  tarEncode [⟨"data.json", (printJson j).map Char.toNat⟩]

/-- Run `fetch_tar_file_data` (awaited) against a server that serves the
given body, then run `_process_` on the extracted bytes (a `None`
fetch outcome reaches `json.loads(None)`). -/
def fetchPipeline (body : List Nat) : Except PyErr Json :=
  match (fetch_tar_file_data (fun _ => .ok body) "url").1 with
  | .error e => .error e
  | .ok none => json_loads .noneV
  | .ok (some bs) => json_loads (.bytes bs)

/-! ## Codec lemmas -/

/-- Digit lists evaluate back to the encoded number. -/
theorem valDigits_digitsAux (b : Nat) (hb : 2 ≤ b) :
    ∀ fuel n, n ≤ fuel → valDigits b (digitsAux b fuel n) = n := by
  intro fuel
  induction fuel with
  | zero =>
    intro n h
    interval_cases n
    rfl
  | succ f ih =>
    intro n h
    match n with
    | 0 => rfl
    | m + 1 =>
      have hdiv : (m + 1) / b ≤ f := by
        have h2 : (m + 1) / b < m + 1 := Nat.div_lt_self (by omega) (by omega)
        omega
      rw [digitsAux, valDigits, ih ((m + 1) / b) hdiv]
      exact Nat.mod_add_div (m + 1) b

/-- Digit-codec round trip. -/
theorem valDigits_natDigits (b n : Nat) (hb : 2 ≤ b) :
    valDigits b (natDigits b n) = n := by
  rw [natDigits]
  exact valDigits_digitsAux b hb n n le_rfl

/-- Length-prefixed naturals decode back, leaving the rest untouched. -/
theorem decNat_encNat (n : Nat) (r : List Nat) :
    decNat (encNat n ++ r) = some (n, r) := by
  rw [encNat, List.cons_append]
  simp only [decNat]
  rw [if_pos (by simp), List.take_left, List.drop_left,
      valDigits_natDigits 256 n (by omega)]

/-- Length-prefixed blocks decode back, leaving the rest untouched. -/
theorem decBlock_encBlock (bs r : List Nat) :
    decBlock (encBlock bs ++ r) = some (bs, r) := by
  rw [encBlock, List.append_assoc]
  simp only [decBlock, decNat_encNat]
  rw [if_pos (by simp), List.take_left, List.drop_left]

/-- Byte round trip for character data. -/
theorem map_ofNat_map_toNat (l : List Char) :
    (l.map Char.toNat).map Char.ofNat = l := by
  induction l with
  | nil => rfl
  | cons c cs ih => simp [ih, Char.ofNat_toNat]

/-- A string is the string of its characters. -/
theorem stringMk_data (s : String) : String.mk s.data = s := by
  cases s
  rfl

/-- Member encoding round trip. -/
theorem decMember_encMember (m : TarMember) (r : List Nat) :
    decMember (encMember m ++ r) = some (m, r) := by
  rw [encMember, List.append_assoc]
  simp only [decMember, decBlock_encBlock]
  rw [map_ofNat_map_toNat, stringMk_data]

/-- Member-list encoding round trip. -/
theorem decMembers_encMembers :
    ∀ ms : List TarMember,
      decMembers ms.length ((ms.map encMember).flatten) = some ms := by
  intro ms
  induction ms with
  | nil => rfl
  | cons m rest ih =>
    simp only [List.map_cons, List.flatten_cons, List.length_cons]
    simp only [decMembers, decMember_encMember, ih]

/-- The archive codec round trip: a well-formed archive enumerates to
exactly the member list it was built from. -/
theorem tarDecode_tarEncode (ms : List TarMember) :
    tarDecode (tarEncode ms) = some ms := by
  have h1 : decBlock (encBlock (encNat ms.length ++ (ms.map encMember).flatten))
      = some (encNat ms.length ++ (ms.map encMember).flatten, []) := by
    have h2 := decBlock_encBlock (encNat ms.length ++ (ms.map encMember).flatten) []
    simpa using h2
  rw [tarEncode]
  simp [tarDecode, h1, decNat_encNat, decMembers_encMembers]

/-- `find?` hits give the head of the corresponding `filter`. -/
theorem filter_cons_of_find? {α : Type} (q : α → Bool) :
    ∀ (l : List α) (m : α), l.find? q = some m → ∃ t, l.filter q = m :: t := by
  intro l
  induction l with
  | nil =>
    intro m h
    simp [List.find?] at h
  | cons a rest ih =>
    intro m h
    by_cases hq : q a = true
    · rw [List.find?_cons_of_pos rest hq] at h
      have ha : a = m := by injection h
      subst ha
      exact ⟨rest.filter q, by rw [List.filter_cons_of_pos hq]⟩
    · rw [List.find?_cons_of_neg rest (by simpa using hq)] at h
      obtain ⟨t, ht⟩ := ih m h
      exact ⟨t, by rw [List.filter_cons_of_neg (by simpa using hq), ht]⟩

/-! ## Claims C2, C3, C5, C6, C7, C8, C9, C10 -/

/-- Claim C2: for every non-None URL, `_fetch_` calls the async method
`fetch_tar_file_data` without awaiting it and returns the unawaited
coroutine object, and `_process_` applied to that result raises
`TypeError` (`json.loads` of a coroutine), never yielding a parsed JSON
value. -/
theorem fetch_returns_unawaited_coroutine (u : String) :
    fetchMethod (some u) = ⟨.coroutine u, false, true⟩ ∧
    processMethod (PyVal.coroutine u) = .error .typeError :=
  ⟨rfl, rfl⟩

/-- Claim C3 (evaluation at the failing input): for a well-formed archive
with no `.json` member, the fetch fails with `IndexError` from
`tfile_data[0]` on the empty selection list, not with the explicit
FormatError the claim states. -/
theorem no_json_member_raises_index_error :
    (fetch_tar_file_data
        (fun _ => .ok (tarEncode [⟨"readme.txt", [104, 105]⟩])) "u").1
      = .error .indexError ∧
    PyErr.indexError ≠ PyErr.formatError :=
  ⟨rfl, by decide⟩

/-- Helper: whenever the first chunk of the body is non-empty and fails
to decode as a gzip tar, the fetch fails with FormatError after touching
only that first chunk. -/
theorem fetch_parse_first_chunk (net : String → NetResponse) (u : String)
    (body : List Nat) (hnet : net u = .ok body)
    (hne : (body.take CHUNK).isEmpty = false)
    (hdec : tarDecode (body.take CHUNK) = none) :
    fetch_tar_file_data net u =
      (.error .formatError,
        [ .urlopenCall u, .bufferCreate, .readChunk (body.take CHUNK),
          .streamClose, .seekZero, .tarOpenCall (body.take CHUNK) ]) := by
  simp [fetch_tar_file_data, hnet, hne, hdec]

/-- Claim C5 (evaluation at the failing input): for a 16385-byte response
the code closes the stream and calls `tarfile.open` after buffering only
the first 16384-byte chunk - interpretation of the buffer begins before
end-of-stream was reached, on a proper prefix of the body. -/
theorem parses_after_first_chunk_only :
    fetch_tar_file_data (fun _ => .ok (List.replicate 16385 0)) "u" =
      (.error .formatError,
        [ .urlopenCall "u", .bufferCreate, .readChunk (List.replicate 16384 0),
          .streamClose, .seekZero, .tarOpenCall (List.replicate 16384 0) ]) ∧
    List.replicate 16384 (0 : Nat) ≠ List.replicate 16385 0 := by
  have htake : (List.replicate 16385 (0 : Nat)).take CHUNK
      = List.replicate 16384 (0 : Nat) := by
    rw [CHUNK, List.take_replicate]
    norm_num
  have hcons : List.replicate 16384 (0 : Nat)
      = 0 :: 0 :: List.replicate 16382 0 := by
    rw [show (16384 : Nat) = 16383 + 1 by norm_num, List.replicate_succ,
        show (16383 : Nat) = 16382 + 1 by norm_num, List.replicate_succ]
  constructor
  · have hmain := fetch_parse_first_chunk (fun _ => .ok (List.replicate 16385 0))
      "u" (List.replicate 16385 0) rfl ?_ ?_
    · rw [htake] at hmain
      exact hmain
    · rw [htake, hcons]
      rfl
    · rw [htake, hcons]
      simp only [tarDecode]
      rw [if_neg (by decide)]
  · intro h
    have h2 := congrArg List.length h
    simp only [List.length_replicate] at h2
    omega

/-- Claim C6 (evaluation at a failing input): on the no-`.json`-member
error path, the stream was opened and closed once, but the buffer and the
tar reader were each opened once and never closed - close counts do not
match open counts when the error propagates. -/
theorem fetch_leaks_handles_on_error :
    (fetch_tar_file_data
        (fun _ => .ok (tarEncode [⟨"readme.txt", [104, 105]⟩])) "u").1
      = .error .indexError ∧
    countUrlopen (fetch_tar_file_data
        (fun _ => .ok (tarEncode [⟨"readme.txt", [104, 105]⟩])) "u").2 = 1 ∧
    countStreamClose (fetch_tar_file_data
        (fun _ => .ok (tarEncode [⟨"readme.txt", [104, 105]⟩])) "u").2 = 1 ∧
    countBufferCreate (fetch_tar_file_data
        (fun _ => .ok (tarEncode [⟨"readme.txt", [104, 105]⟩])) "u").2 = 1 ∧
    countBufferClose (fetch_tar_file_data
        (fun _ => .ok (tarEncode [⟨"readme.txt", [104, 105]⟩])) "u").2 = 0 ∧
    countTarOpen (fetch_tar_file_data
        (fun _ => .ok (tarEncode [⟨"readme.txt", [104, 105]⟩])) "u").2 = 1 ∧
    countTarClose (fetch_tar_file_data
        (fun _ => .ok (tarEncode [⟨"readme.txt", [104, 105]⟩])) "u").2 = 0 :=
  ⟨rfl, rfl, rfl, rfl, rfl, rfl, rfl⟩

/-- Claim C7 (counterexample): an empty-string URL is NOT treated as
absent - `_fetch_` does not skip, does not warn, and proceeds to invoke
the fetch (the `None` check on line 116 does not catch `""`). -/
theorem empty_url_not_skipped :
    fetchMethod (some "") = ⟨.coroutine "", false, true⟩ ∧
    (fetchMethod (some "")).warned = false ∧
    (fetchMethod (some "")).startedFetch = true :=
  ⟨rfl, rfl, rfl⟩

/-- Claim C7 (amended): when the fetch event's URL is absent (None),
`_fetch_` skips the fetch entirely (no invocation of
`fetch_tar_file_data`), logs a configuration warning, and returns `None`
without raising. -/
theorem none_url_skips_and_warns :
    fetchMethod none = ⟨.noneV, true, false⟩ :=
  rfl

/-- Claim C8: within one fetch invocation the network open is attempted
exactly once whatever the outcome; the declared `RETRY_CONFIG` (stop
after 10 attempts) is applied to no call; and for an unreachable URL the
invocation fails with a TransportError after that single attempt. -/
theorem single_attempt_no_retry :
    (∀ net u, countUrlopen (fetch_tar_file_data net u).2 = 1) ∧
    RETRY_CONFIG.stopAfterAttempts = 10 ∧
    (∀ net u, net u = .failure →
      fetch_tar_file_data net u = (.error .transportError, [ .urlopenCall u ])) := by
  refine ⟨?_, rfl, ?_⟩
  · intro net u
    cases hnet : net u with
    | failure => simp [fetch_tar_file_data, hnet, countUrlopen]
    | ok body =>
      simp only [fetch_tar_file_data, hnet]
      split
      · simp [countUrlopen]
      · split
        · simp [countUrlopen]
        · split
          · simp [countUrlopen]
          · split
            · simp [countUrlopen]
            · simp [countUrlopen, List.countP_append]
  · intro net u h
    simp [fetch_tar_file_data, h]

/-- Witness for C8 at a concrete unreachable-URL network. -/
theorem single_attempt_no_retry_w :
    countUrlopen (fetch_tar_file_data (fun _ => .failure) "u").2 = 1 ∧
    fetch_tar_file_data (fun _ => .failure) "u"
      = (.error .transportError, [ .urlopenCall "u" ]) :=
  ⟨single_attempt_no_retry.1 (fun _ => .failure) "u",
   single_attempt_no_retry.2.2 (fun _ => .failure) "u" rfl⟩

/-- Claim C9: `__init__` assigns neither `_connection` nor
`_transaction`; every `__aenter__` invocation fails with
`AttributeError` (dereferencing the unassigned `_connection` when the
event carries a config, or the `None` config before it); `__aexit__`
from the initial state fails with `AttributeError` reading the
unassigned `_transaction`; and no `__aenter__` outcome ever changes the
`_connection` attribute. -/
theorem dead_connection_lifecycle :
    initProviderState.conn = none ∧
    (∀ cfg, aenter cfg initProviderState = .error .attributeError) ∧
    aexit initProviderState = .error .attributeError ∧
    (∀ cfg st st', aenter cfg st = .ok st' → st'.conn = st.conn) := by
  refine ⟨rfl, ?_, rfl, ?_⟩
  · intro cfg
    cases cfg <;> rfl
  · intro cfg st st' h
    cases cfg with
    | none => simp [aenter] at h
    | some c =>
      cases hc : st.conn with
      | none => simp [aenter, hc] at h
      | some x =>
        simp only [aenter, hc] at h
        injection h with h2
        subst h2
        rfl

/-- Witness for C9 at concrete configs and states. -/
theorem dead_connection_lifecycle_w :
    aenter (some ⟨"NginxCephFetchProvider", none⟩) initProviderState
      = .error .attributeError ∧
    aexit initProviderState = .error .attributeError ∧
    (ProviderStateM.mk (some ()) (some ())).conn
      = (ProviderStateM.mk (some ()) none).conn :=
  ⟨dead_connection_lifecycle.2.1 (some ⟨"NginxCephFetchProvider", none⟩),
   dead_connection_lifecycle.2.2.1,
   dead_connection_lifecycle.2.2.2 (some ⟨"NginxCephFetchProvider", none⟩)
     ⟨some (), none⟩ ⟨some (), some ()⟩ rfl⟩

/-- Claim C10: a zero-byte response body makes the download loop break on
its first read; the function falls off its end returning `None`, with no
tar open (and no format error) ever happening. -/
theorem empty_body_returns_none (net : String → NetResponse) (u : String)
    (h : net u = .ok []) :
    fetch_tar_file_data net u =
      (.ok none, [ .urlopenCall u, .bufferCreate, .readChunk [] ]) ∧
    countTarOpen (fetch_tar_file_data net u).2 = 0 := by
  constructor
  · simp [fetch_tar_file_data, h]
  · simp [fetch_tar_file_data, h, countTarOpen]

/-- Witness for C10 at a concrete empty-body network. -/
theorem empty_body_returns_none_w :
    fetch_tar_file_data (fun _ => .ok []) "u" =
      (.ok none, [ .urlopenCall "u", .bufferCreate, .readChunk [] ]) ∧
    countTarOpen (fetch_tar_file_data (fun _ => .ok []) "u").2 = 0 :=
  empty_body_returns_none (fun _ => .ok []) "u" rfl

/-! ## JSON printer/parser round-trip machinery -/

/-- Every JSON value has positive measure. -/
theorem jm_pos (j : Json) : 1 ≤ jm j := by
  cases j <;> simp only [jm] <;> omega

/-- Parsing a printed (escaped) string body consumes it exactly. -/
theorem parseStrAux_escList :
    ∀ (cs rest : List Char),
      parseStrAux (escList cs ++ '"' :: rest) = some (cs, rest) := by
  intro cs
  induction cs with
  | nil =>
    intro rest
    simp [escList, parseStrAux.eq_def]
  | cons c cs ih =>
    intro rest
    rw [escList]
    by_cases hq : c = '"'
    · subst hq
      rw [show escChar '"' = [ '\\', '"' ] from rfl]
      rw [List.cons_append, List.cons_append, parseStrAux.eq_def]
      simp [unescChar, ih]
    · by_cases hb : c = '\\'
      · subst hb
        rw [show escChar '\\' = [ '\\', '\\' ] from rfl]
        rw [List.cons_append, List.cons_append, parseStrAux.eq_def]
        simp [unescChar, ih]
      · rw [show escChar c = [c] by simp [escChar, hq, hb]]
        rw [List.cons_append, parseStrAux.eq_def]
        simp [hq, hb, ih]

/-- All digits produced by `digitsAux` are below the base. -/
theorem digitsAux_lt (b : Nat) (hb : 0 < b) :
    ∀ fuel n d, d ∈ digitsAux b fuel n → d < b := by
  intro fuel
  induction fuel with
  | zero =>
    intro n d h
    simp [digitsAux] at h
  | succ f ih =>
    intro n d h
    match n with
    | 0 => simp [digitsAux] at h
    | m + 1 =>
      rw [digitsAux] at h
      rcases List.mem_cons.mp h with h1 | h2
      · subst h1
        exact Nat.mod_lt _ hb
      · exact ih ((m + 1) / b) d h2

/-- A decimal digit character is a digit character. -/
theorem digitChar_isDigit (d : Nat) (h : d < 10) :
    (digitChar d).isDigit = true := by
  interval_cases d <;> decide

/-- Code of a decimal digit character. -/
theorem digitChar_toNat (d : Nat) (h : d < 10) :
    (digitChar d).toNat = 48 + d := by
  interval_cases d <;> decide

/-- `natToChars` never produces the empty list. -/
theorem natToChars_ne_nil (n : Nat) : natToChars n ≠ [] := by
  rw [natToChars]
  split
  · simp
  · rename_i h
    obtain ⟨m, rfl⟩ := Nat.exists_eq_succ_of_ne_zero h
    rw [natDigits, digitsAux]
    simp

/-- Every character of `natToChars` is a decimal digit. -/
theorem natToChars_digits (n : Nat) :
    ∀ c ∈ natToChars n, c.isDigit = true := by
  intro c hc
  rw [natToChars] at hc
  split at hc
  · simp at hc
    subst hc
    decide
  · simp only [List.mem_map, List.mem_reverse] at hc
    obtain ⟨d, hd, rfl⟩ := hc
    exact digitChar_isDigit d (digitsAux_lt 10 (by omega) n n d hd)

/-- `natToChars` decomposes as a digit head and a tail. -/
theorem natToChars_head (n : Nat) :
    ∃ c cs, natToChars n = c :: cs ∧ c.isDigit = true := by
  cases h : natToChars n with
  | nil => exact absurd h (natToChars_ne_nil n)
  | cons c cs =>
    refine ⟨c, cs, rfl, ?_⟩
    exact natToChars_digits n c (h ▸ List.mem_cons_self c cs)

/-- A digit character is none of the parser's keyword or punctuation dispatch heads. -/
theorem digit_not_keyword (c : Char) (h : c.isDigit = true) :
    c ≠ 'n' ∧ c ≠ 't' ∧ c ≠ 'f' ∧ c ≠ '"' ∧ c ≠ '[' ∧
    c ≠ obraceChar ∧ c ≠ '-' := by
  refine ⟨?_, ?_, ?_, ?_, ?_, ?_, ?_⟩ <;>
    · rintro rfl
      exact absurd h (by decide)

/-- `takeWhile`/`dropWhile` slide over a prefix that satisfies the
predicate. -/
theorem takeWhile_dropWhile_append (p : Char → Bool) :
    ∀ (l r : List Char), (∀ c ∈ l, p c = true) →
      (l ++ r).takeWhile p = l ++ r.takeWhile p ∧
      (l ++ r).dropWhile p = r.dropWhile p := by
  intro l
  induction l with
  | nil =>
    intro r h
    simp
  | cons c l ih =>
    intro r h
    have hc : p c = true := h c (List.mem_cons_self c l)
    have htail := ih r (fun x hx => h x (List.mem_cons_of_mem c hx))
    simp [List.takeWhile_cons, List.dropWhile_cons, hc, htail.1, htail.2]

/-- A `restOk` continuation contributes nothing to a digit run. -/
theorem restOk_digit_run (rest : List Char) (h : restOk rest = true) :
    rest.takeWhile Char.isDigit = [] ∧ rest.dropWhile Char.isDigit = rest := by
  cases rest with
  | nil => simp
  | cons c r =>
    simp only [restOk, Bool.not_eq_true'] at h
    simp [List.takeWhile_cons, List.dropWhile_cons, h]

/-- Digit-character folding agrees with numeric folding. -/
theorem foldl_digitChar (ds : List Nat) (h : ∀ d ∈ ds, d < 10) :
    ∀ a : Nat,
      (ds.map digitChar).foldl (fun x c => 10 * x + (c.toNat - 48)) a
        = ds.foldl (fun x d => 10 * x + d) a := by
  induction ds with
  | nil =>
    intro a
    rfl
  | cons d ds ih =>
    intro a
    have hd : d < 10 := h d (List.mem_cons_self d ds)
    simp only [List.map_cons, List.foldl_cons,
      digitChar_toNat d hd, Nat.add_sub_cancel_left]
    exact ih (fun x hx => h x (List.mem_cons_of_mem d hx)) _

/-- Folding big-endian over reversed little-endian digits recovers the
value. -/
theorem foldl_reverse_val (ds : List Nat) :
    ∀ a : Nat,
      List.foldl (fun x d => 10 * x + d) a ds.reverse
        = a * 10 ^ ds.length + valDigits 10 ds := by
  induction ds with
  | nil =>
    intro a
    simp [valDigits]
  | cons d ds ih =>
    intro a
    rw [List.reverse_cons, List.foldl_append, ih a]
    simp only [List.foldl_cons, List.foldl_nil, valDigits, List.length_cons]
    ring

/-- Parsing the decimal print of `n` yields `n` and the untouched
continuation. -/
theorem parseNat_natToChars (n : Nat) (rest : List Char)
    (hrest : restOk rest = true) :
    parseNat (natToChars n ++ rest) = some (n, rest) := by
  have hall := natToChars_digits n
  have hsplit := takeWhile_dropWhile_append Char.isDigit (natToChars n) rest hall
  have hrun := restOk_digit_run rest hrest
  rw [parseNat]
  simp only [hsplit.1, hsplit.2, hrun.1, hrun.2, List.append_nil]
  rw [if_neg (by simpa [List.isEmpty_iff] using natToChars_ne_nil n)]
  refine congrArg some (Prod.ext ?_ rfl)
  show (natToChars n).foldl (fun x c => 10 * x + (c.toNat - 48)) 0 = n
  by_cases hn : n = 0
  · subst hn
    decide
  · rw [natToChars, if_neg hn]
    rw [foldl_digitChar (natDigits 10 n).reverse
      (fun d hd => digitsAux_lt 10 (by omega) n n d (List.mem_reverse.mp hd)) 0]
    rw [show (natDigits 10 n).reverse = ((natDigits 10 n).reverse.reverse).reverse by
      rw [List.reverse_reverse]]
    rw [foldl_reverse_val ((natDigits 10 n).reverse.reverse)]
    rw [List.reverse_reverse]
    rw [valDigits_natDigits 10 n (by omega)]
    simp


/-- One-step reduction of `parseVal` on a cons input (definitional). -/
theorem parseVal_cons (f : Nat) (c : Char) (X : List Char) :
    parseVal (f + 1) (c :: X) =
      (if c = 'n' then
        match X with
        | 'u' :: 'l' :: 'l' :: r => some (Json.null, r)
        | _ => none
      else if c = 't' then
        match X with
        | 'r' :: 'u' :: 'e' :: r => some (Json.bool true, r)
        | _ => none
      else if c = 'f' then
        match X with
        | 'a' :: 'l' :: 's' :: 'e' :: r => some (Json.bool false, r)
        | _ => none
      else if c = '"' then
        match parseStrAux X with
        | some (cs, r) => some (Json.str (String.mk cs), r)
        | none => none
      else if c = '[' then
        parseArrBody f X
      else if c = obraceChar then
        parseObjBody f X
      else if c = '-' then
        match parseNat X with
        | some (n, r) => some (Json.num (-(n : Int)), r)
        | none => none
      else if c.isDigit then
        match parseNat (c :: X) with
        | some (n, r) => some (Json.num (n : Int), r)
        | none => none
      else none) := rfl

/-- One-step reduction of `parseArrBody` on a cons input (definitional). -/
theorem parseArrBody_cons (f : Nat) (c : Char) (X : List Char) :
    parseArrBody (f + 1) (c :: X) =
      (if c = ']' then some (Json.arr [], X)
      else
        match parseVal f (c :: X) with
        | some (v, r1) =>
          match r1 with
          | [] => none
          | c2 :: r2 =>
            if c2 = ',' then
              match parseArrBody f r2 with
              | some (Json.arr vs, r3) => some (Json.arr (v :: vs), r3)
              | _ => none
            else if c2 = ']' then some (Json.arr [v], r2)
            else none
        | none => none) := rfl

/-- One-step reduction of `parseObjBody` on a cons input (definitional). -/
theorem parseObjBody_cons (f : Nat) (c : Char) (X : List Char) :
    parseObjBody (f + 1) (c :: X) =
      (if c = cbraceChar then some (Json.obj [], X)
      else if c = '"' then
        match parseStrAux X with
        | some (kcs, r1) =>
          match r1 with
          | [] => none
          | c2 :: r2 =>
            if c2 = ':' then
              match parseVal f r2 with
              | some (v, r3) =>
                match r3 with
                | [] => none
                | c4 :: r4 =>
                  if c4 = ',' then
                    match parseObjBody f r4 with
                    | some (Json.obj fs, r5) =>
                      some (Json.obj ((String.mk kcs, v) :: fs), r5)
                    | _ => none
                  else if c4 = cbraceChar then
                    some (Json.obj [(String.mk kcs, v)], r4)
                  else none
              | none => none
            else none
        | none => none
      else none) := rfl

/-- Every printed JSON value starts with a recognised dispatch
character. -/
theorem printJson_head (j : Json) :
    ∃ c cs, printJson j = c :: cs ∧
      (c = 'n' ∨ c = 't' ∨ c = 'f' ∨ c = '"' ∨ c = '[' ∨ c = obraceChar ∨
       c = '-' ∨ c.isDigit = true) := by
  cases j with
  | null => exact ⟨'n', _, rfl, by tauto⟩
  | bool b =>
    cases b with
    | true => exact ⟨'t', _, rfl, by tauto⟩
    | false => exact ⟨'f', _, rfl, by tauto⟩
  | num n =>
    by_cases hneg : n < 0
    · refine ⟨'-', natToChars n.natAbs, ?_, by tauto⟩
      rw [printJson, if_pos hneg]
    · obtain ⟨c, cs, hc, hd⟩ := natToChars_head n.natAbs
      refine ⟨c, cs, ?_, by tauto⟩
      rw [printJson, if_neg hneg, hc]
  | str s => exact ⟨'"', _, rfl, by tauto⟩
  | arr es => exact ⟨'[', _, rfl, by tauto⟩
  | obj fs => exact ⟨obraceChar, _, rfl, by tauto⟩

/-- A printed JSON value never starts with a closing bracket or brace. -/
theorem printJson_head_ne (j : Json) :
    ∃ c cs, printJson j = c :: cs ∧ ¬ c = ']' ∧ ¬ c = cbraceChar := by
  obtain ⟨c, cs, hc, hd⟩ := printJson_head j
  refine ⟨c, cs, hc, ?_, ?_⟩
  · rcases hd with rfl | rfl | rfl | rfl | rfl | rfl | rfl | hdig
    · decide
    · decide
    · decide
    · decide
    · decide
    · decide
    · decide
    · rintro rfl
      exact absurd hdig (by decide)
  · rcases hd with rfl | rfl | rfl | rfl | rfl | rfl | rfl | hdig
    · decide
    · decide
    · decide
    · decide
    · decide
    · decide
    · decide
    · rintro rfl
      exact absurd hdig (by decide)

/-- Main parser/printer agreement, by induction on the parser fuel: a
printed value followed by a non-digit continuation parses back to
itself, and likewise for printed array-item and object-field lists
followed by their closing bracket or brace. -/
theorem parse_print_main (fuel : Nat) :
    (∀ j rest, jm j ≤ fuel → restOk rest = true →
        parseVal fuel (printJson j ++ rest) = some (j, rest)) ∧
    (∀ es rest, jmA es < fuel →
        parseArrBody fuel (printArrItems es ++ ']' :: rest)
          = some (.arr es, rest)) ∧
    (∀ fs rest, jmO fs < fuel →
        parseObjBody fuel (printObjItems fs ++ cbraceChar :: rest)
          = some (.obj fs, rest)) := by
  induction fuel with
  | zero =>
    refine ⟨?_, ?_, ?_⟩
    · intro j rest hj hrest
      have := jm_pos j
      omega
    · intro es rest h
      omega
    · intro fs rest h
      omega
  | succ f ih =>
    obtain ⟨ihV, ihA, ihO⟩ := ih
    refine ⟨?_, ?_, ?_⟩
    · intro j rest hj hrest
      cases j with
      | null =>
        rw [show printJson Json.null ++ rest = 'n' :: 'u' :: 'l' :: 'l' :: rest
          from rfl]
        rw [parseVal_cons]
        simp
      | bool b =>
        cases b with
        | true =>
          rw [show printJson (Json.bool true) ++ rest
            = 't' :: 'r' :: 'u' :: 'e' :: rest from rfl]
          rw [parseVal_cons]
          simp
        | false =>
          rw [show printJson (Json.bool false) ++ rest
            = 'f' :: 'a' :: 'l' :: 's' :: 'e' :: rest from rfl]
          rw [parseVal_cons]
          simp
      | num n =>
        by_cases hneg : n < 0
        · have h1 : printJson (Json.num n) = '-' :: natToChars n.natAbs := by
            rw [printJson, if_pos hneg]
          rw [h1, List.cons_append, parseVal_cons]
          rw [if_neg (show ¬ (('-' : Char) = 'n') by decide),
              if_neg (show ¬ (('-' : Char) = 't') by decide),
              if_neg (show ¬ (('-' : Char) = 'f') by decide),
              if_neg (show ¬ (('-' : Char) = '"') by decide),
              if_neg (show ¬ (('-' : Char) = '[') by decide),
              if_neg (show ¬ (('-' : Char) = obraceChar) by decide),
              if_pos (rfl : ('-' : Char) = '-')]
          rw [parseNat_natToChars n.natAbs rest hrest]
          have h2 : -((n.natAbs : Nat) : Int) = n := by omega
          show some (Json.num (-((n.natAbs : Nat) : Int)), rest)
            = some (Json.num n, rest)
          rw [h2]
        · obtain ⟨c, cs, hc, hd⟩ := natToChars_head n.natAbs
          obtain ⟨k1, k2, k3, k4, k5, k6, k7⟩ := digit_not_keyword c hd
          have h1 : printJson (Json.num n) = natToChars n.natAbs := by
            rw [printJson, if_neg hneg]
          rw [h1, hc, List.cons_append, parseVal_cons]
          rw [if_neg k1, if_neg k2, if_neg k3, if_neg k4, if_neg k5,
              if_neg k6, if_neg k7, if_pos hd]
          rw [show c :: (cs ++ rest) = natToChars n.natAbs ++ rest by
            rw [hc, List.cons_append]]
          rw [parseNat_natToChars n.natAbs rest hrest]
          have h2 : ((n.natAbs : Nat) : Int) = n := by omega
          show some (Json.num ((n.natAbs : Nat) : Int), rest)
            = some (Json.num n, rest)
          rw [h2]
      | str s =>
        have h1 : printJson (Json.str s) ++ rest
            = '"' :: (escList s.data ++ '"' :: rest) := by
          rw [printJson]
          simp
        rw [h1, parseVal_cons]
        rw [if_neg (show ¬ (('"' : Char) = 'n') by decide),
            if_neg (show ¬ (('"' : Char) = 't') by decide),
            if_neg (show ¬ (('"' : Char) = 'f') by decide),
            if_pos (rfl : ('"' : Char) = '"')]
        rw [parseStrAux_escList s.data rest]
      | arr es =>
        have h1 : printJson (Json.arr es) ++ rest
            = '[' :: (printArrItems es ++ ']' :: rest) := by
          rw [printJson]
          simp
        rw [h1, parseVal_cons]
        rw [if_neg (show ¬ (('[' : Char) = 'n') by decide),
            if_neg (show ¬ (('[' : Char) = 't') by decide),
            if_neg (show ¬ (('[' : Char) = 'f') by decide),
            if_neg (show ¬ (('[' : Char) = '"') by decide),
            if_pos (rfl : ('[' : Char) = '[')]
        refine ihA es rest ?_
        rw [jm] at hj
        omega
      | obj fs =>
        have h1 : printJson (Json.obj fs) ++ rest
            = obraceChar :: (printObjItems fs ++ cbraceChar :: rest) := by
          rw [printJson]
          simp
        rw [h1, parseVal_cons]
        rw [if_neg (show ¬ (obraceChar = 'n') by decide),
            if_neg (show ¬ (obraceChar = 't') by decide),
            if_neg (show ¬ (obraceChar = 'f') by decide),
            if_neg (show ¬ (obraceChar = '"') by decide),
            if_neg (show ¬ (obraceChar = '[') by decide),
            if_pos (rfl : obraceChar = obraceChar)]
        refine ihO fs rest ?_
        rw [jm] at hj
        omega
    · intro es rest h
      cases es with
      | nil =>
        rw [show printArrItems ([] : List Json) = [] from rfl, List.nil_append,
            parseArrBody_cons, if_pos (rfl : (']' : Char) = ']')]
      | cons e es' =>
        obtain ⟨c, cs, hc, hcr, hcb⟩ := printJson_head_ne e
        have hpos := jm_pos e
        cases es' with
        | nil =>
          have hjm : jm e ≤ f := by
            rw [jmA, jmA] at h
            omega
          have h1 : printArrItems [e] ++ ']' :: rest = c :: (cs ++ ']' :: rest) := by
            rw [show printArrItems [e] = printJson e from rfl, hc, List.cons_append]
          rw [h1, parseArrBody_cons, if_neg hcr]
          rw [show c :: (cs ++ ']' :: rest) = printJson e ++ ']' :: rest by
            rw [hc, List.cons_append]]
          rw [ihV e (']' :: rest) hjm rfl]
          simp
        | cons e2 es'' =>
          have hjm : jm e ≤ f := by
            rw [jmA] at h
            omega
          have hjmA : jmA (e2 :: es'') < f := by
            rw [jmA] at h
            omega
          have h1 : printArrItems (e :: e2 :: es'') ++ ']' :: rest
              = c :: (cs ++ (',' :: (printArrItems (e2 :: es'') ++ ']' :: rest))) := by
            rw [printArrItems, hc]
            simp
          rw [h1, parseArrBody_cons, if_neg hcr]
          rw [show c :: (cs ++ (',' :: (printArrItems (e2 :: es'') ++ ']' :: rest)))
              = printJson e ++ (',' :: (printArrItems (e2 :: es'') ++ ']' :: rest)) by
            rw [hc, List.cons_append]]
          rw [ihV e (',' :: (printArrItems (e2 :: es'') ++ ']' :: rest)) hjm rfl]
          simp [ihA (e2 :: es'') rest hjmA]
    · intro fs rest h
      cases fs with
      | nil =>
        rw [show printObjItems ([] : List (String × Json)) = [] from rfl,
            List.nil_append, parseObjBody_cons, if_pos (rfl : cbraceChar = cbraceChar)]
      | cons kv fs' =>
        obtain ⟨k, v⟩ := kv
        have hpos := jm_pos v
        cases fs' with
        | nil =>
          have hjm : jm v ≤ f := by
            rw [jmO, jmO] at h
            simp at h
            omega
          have h1 : printObjItems [(k, v)] ++ cbraceChar :: rest
              = '"' :: (escList k.data ++ '"' ::
                  (':' :: (printJson v ++ cbraceChar :: rest))) := by
            rw [show printObjItems [(k, v)]
              = '"' :: escList k.data ++ '"' :: ':' :: printJson v from rfl]
            simp
          rw [h1, parseObjBody_cons,
              if_neg (show ¬ (('"' : Char) = cbraceChar) by decide),
              if_pos (rfl : ('"' : Char) = '"')]
          rw [parseStrAux_escList k.data
            (':' :: (printJson v ++ cbraceChar :: rest))]
          simp only [if_pos (rfl : (':' : Char) = ':')]
          rw [ihV v (cbraceChar :: rest) hjm rfl]
          simp [stringMk_data, show ¬ (cbraceChar = ',') from by decide]
        | cons kv2 fs'' =>
          have hjm : jm v ≤ f := by
            rw [jmO] at h
            simp at h
            omega
          have hjmO : jmO (kv2 :: fs'') < f := by
            rw [jmO] at h
            simp at h
            omega
          have h1 : printObjItems ((k, v) :: kv2 :: fs'') ++ cbraceChar :: rest
              = '"' :: (escList k.data ++ '"' ::
                  (':' :: (printJson v ++
                    (',' :: (printObjItems (kv2 :: fs'') ++ cbraceChar :: rest))))) := by
            rw [printObjItems]
            simp
          rw [h1, parseObjBody_cons,
              if_neg (show ¬ (('"' : Char) = cbraceChar) by decide),
              if_pos (rfl : ('"' : Char) = '"')]
          rw [parseStrAux_escList k.data
            (':' :: (printJson v ++
              (',' :: (printObjItems (kv2 :: fs'') ++ cbraceChar :: rest))))]
          simp only [if_pos (rfl : (':' : Char) = ':')]
          rw [ihV v
            (',' :: (printObjItems (kv2 :: fs'') ++ cbraceChar :: rest)) hjm rfl]
          simp [ihO (kv2 :: fs'') rest hjmO, stringMk_data]

/-- Measure vs printed length: the parser fuel drawn from the input
length suffices for any printed value. -/
theorem jm_le_print (n : Nat) :
    (∀ j, jm j ≤ n → jm j + 1 ≤ 2 * (printJson j).length) ∧
    (∀ es, jmA es ≤ n → jmA es ≤ 2 * (printArrItems es).length) ∧
    (∀ fs, jmO fs ≤ n → jmO fs ≤ 2 * (printObjItems fs).length) := by
  induction n with
  | zero =>
    refine ⟨?_, ?_, ?_⟩
    · intro j hj
      have := jm_pos j
      omega
    · intro es h
      cases es with
      | nil => simp [jmA]
      | cons e es' =>
        rw [jmA] at h
        have := jm_pos e
        omega
    · intro fs h
      cases fs with
      | nil => simp [jmO]
      | cons kv fs' =>
        rw [jmO] at h
        have := jm_pos kv.2
        omega
  | succ n ih =>
    obtain ⟨ihJ, ihA, ihO⟩ := ih
    refine ⟨?_, ?_, ?_⟩
    · intro j hj
      cases j with
      | null =>
        rw [jm]
        simp [printJson]
      | bool b =>
        cases b <;> (rw [jm]; simp [printJson])
      | num m =>
        have h1 : 1 ≤ (natToChars m.natAbs).length :=
          List.length_pos.mpr (natToChars_ne_nil m.natAbs)
        rw [jm, printJson]
        split <;> (simp; try omega)
      | str s =>
        rw [jm]
        simp [printJson]
        try omega
      | arr es =>
        rw [jm] at hj ⊢
        have h1 := ihA es (by omega)
        rw [printJson]
        simp [List.length_append]
        omega
      | obj fs =>
        rw [jm] at hj ⊢
        have h1 := ihO fs (by omega)
        rw [printJson]
        simp [List.length_append]
        omega
    · intro es h
      cases es with
      | nil => simp [jmA]
      | cons e es' =>
        have hpe := jm_pos e
        cases es' with
        | nil =>
          simp only [jmA] at h ⊢
          have h1 := ihJ e (by omega)
          rw [show printArrItems [e] = printJson e from rfl]
          omega
        | cons e2 es'' =>
          simp only [jmA] at h ⊢
          have h1 := ihJ e (by omega)
          have h2 := ihA (e2 :: es'') (by simp only [jmA]; omega)
          simp only [jmA] at h2
          rw [printArrItems]
          simp [List.length_append]
          omega
    · intro fs h
      cases fs with
      | nil => simp [jmO]
      | cons kv fs' =>
        obtain ⟨k, v⟩ := kv
        have hpv := jm_pos v
        cases fs' with
        | nil =>
          simp only [jmO] at h ⊢
          have h1 := ihJ v (by omega)
          rw [show printObjItems [(k, v)]
            = '"' :: escList k.data ++ '"' :: ':' :: printJson v from rfl]
          simp [List.length_append]
          omega
        | cons kv2 fs'' =>
          simp only [jmO] at h ⊢
          have h1 := ihJ v (by omega)
          have h2 := ihO (kv2 :: fs'') (by simp only [jmO]; omega)
          simp only [jmO] at h2
          rw [printObjItems]
          simp [List.length_append]
          omega

/-- Model-level `json.loads`/`json.dumps` round trip: parsing a printed
JSON value returns the value. -/
theorem parseJsonChars_printJson (j : Json) :
    parseJsonChars (printJson j) = some j := by
  have h1 : jm j ≤ 2 * (printJson j).length + 2 := by
    have h2 := (jm_le_print (jm j)).1 j le_rfl
    omega
  have h3 := (parse_print_main (2 * (printJson j).length + 2)).1 j [] h1 rfl
  rw [List.append_nil] at h3
  rw [parseJsonChars, h3]

/-- Behaviour of the fetch on a served well-formed archive that fits in
one read chunk: the member whose name is the first `.json`-suffixed name
in stored order is selected, and - because `getmember` resolves a name to
its last occurrence - when that name identifies a unique member, that
member's content is returned, with all three resources closed. -/
theorem fetch_selects_first_unique (ms : List TarMember) (m : TarMember)
    (u : String)
    (hsize : (tarEncode ms).length ≤ CHUNK)
    (hfind : ms.find? (fun x => endsWithJson x.name) = some m)
    (huniq : ∀ x ∈ ms, x.name = m.name → x = m) :
    fetch_tar_file_data (fun _ => .ok (tarEncode ms)) u
      = (.ok (some m.content),
         [ .urlopenCall u, .bufferCreate, .readChunk (tarEncode ms),
           .streamClose, .seekZero, .tarOpenCall (tarEncode ms),
           .tarClose, .bufferClose ]) := by
  have htake : (tarEncode ms).take CHUNK = tarEncode ms :=
    List.take_of_length_le hsize
  have hne : (tarEncode ms).isEmpty = false := by
    rw [tarEncode]
    rfl
  obtain ⟨t, ht⟩ := filter_cons_of_find? (fun x => endsWithJson x.name) ms m hfind
  have hfilter : (ms.map (fun x => x.name)).filter endsWithJson
      = m.name :: t.map (fun x => x.name) := by
    rw [List.filter_map]
    rw [show (endsWithJson ∘ fun x => x.name) = (fun x : TarMember => endsWithJson x.name)
      from rfl]
    rw [ht, List.map_cons]
  have hmem : m ∈ ms := List.mem_of_find?_eq_some hfind
  have hget : getmember ms m.name = some m := by
    rw [getmember]
    have hex : ∃ x ∈ ms.reverse, (fun x : TarMember => x.name == m.name) x = true :=
      ⟨m, List.mem_reverse.mpr hmem, beq_self_eq_true m.name⟩
    have hsome := List.find?_isSome.mpr hex
    obtain ⟨x, hx⟩ : ∃ x, ms.reverse.find? (fun x => x.name == m.name) = some x := by
      cases hfx : ms.reverse.find? (fun x => x.name == m.name) with
      | none =>
        rw [hfx] at hsome
        simp at hsome
      | some x => exact ⟨x, rfl⟩
    have hpx0 := List.find?_some hx
    have hpx : (x.name == m.name) = true := hpx0
    have hxmem : x ∈ ms := List.mem_reverse.mp (List.mem_of_find?_eq_some hx)
    rw [hx, huniq x hxmem (eq_of_beq hpx)]
  simp only [fetch_tar_file_data, htake, hne, Bool.false_eq_true, if_false,
    tarDecode_tarEncode, hfilter, hget]
  rfl

/-- Claim C4 (counterexample): with two members both named `a.json`, the
fetch picks the first matching NAME but `extractfile(name)` resolves it
to the LAST member bearing that name, so the content of the second
member, not the first, is returned. -/
theorem fetch_duplicate_name_returns_last :
    (fetch_tar_file_data
        (fun _ => .ok (tarEncode [⟨"a.json", [49]⟩, ⟨"a.json", [50]⟩])) "u").1
      = .ok (some [50]) ∧
    ¬ ((fetch_tar_file_data
        (fun _ => .ok (tarEncode [⟨"a.json", [49]⟩, ⟨"a.json", [50]⟩])) "u").1
      = .ok (some [49])) := by
  refine ⟨rfl, ?_⟩
  intro h
  rw [show (fetch_tar_file_data
      (fun _ => .ok (tarEncode [⟨"a.json", [49]⟩, ⟨"a.json", [50]⟩])) "u").1
    = Except.ok (some [50]) from rfl] at h
  simp at h

/-- Claim C4 (amended): for every archive that fits in one read chunk,
the fetch selects the first member name (in stored order) ending in
`.json` and returns the content of the last member bearing that name;
whenever that name identifies a unique member - in particular whenever
member names are distinct, as in `[readme.txt, data.json, extra.json]` -
this is exactly the first matching member in stored order. -/
theorem fetch_first_json_tiebreak (ms : List TarMember) (m : TarMember)
    (u : String)
    (hsize : (tarEncode ms).length ≤ CHUNK)
    (hfind : ms.find? (fun x => endsWithJson x.name) = some m)
    (huniq : ∀ x ∈ ms, x.name = m.name → x = m) :
    (fetch_tar_file_data (fun _ => .ok (tarEncode ms)) u).1
      = .ok (some m.content) := by
  rw [fetch_selects_first_unique ms m u hsize hfind huniq]

/-- Witness for C4 at the spec's three-member example. -/
theorem fetch_first_json_tiebreak_w :
    (fetch_tar_file_data
      (fun _ => .ok (tarEncode
        [⟨"readme.txt", [1]⟩, ⟨"data.json", [2]⟩, ⟨"extra.json", [3]⟩])) "u").1
      = .ok (some [2]) :=
  fetch_first_json_tiebreak
    [⟨"readme.txt", [1]⟩, ⟨"data.json", [2]⟩, ⟨"extra.json", [3]⟩]
    ⟨"data.json", [2]⟩ "u" (by decide) (by decide) (by decide)

/-- Claim C1 (amended): for every JSON value whose encoded single-member
archive fits in one 16384-byte read chunk, running the (awaited) fetch
on the archive bytes followed by `_process_` returns a value deep-equal
to the original. -/
theorem fetch_roundtrip_of_fits (j : Json)
    (hsize : (buildArchive j).length ≤ CHUNK) :
    fetchPipeline (buildArchive j) = .ok j := by
  have hfind : ([⟨"data.json", (printJson j).map Char.toNat⟩] : List TarMember).find?
      (fun x => endsWithJson x.name)
      = some ⟨"data.json", (printJson j).map Char.toNat⟩ :=
    List.find?_cons_of_pos _ (by
      show endsWithJson "data.json" = true
      decide)
  have huniq : ∀ x ∈ ([⟨"data.json", (printJson j).map Char.toNat⟩] : List TarMember),
      x.name = (⟨"data.json", (printJson j).map Char.toNat⟩ : TarMember).name
      → x = ⟨"data.json", (printJson j).map Char.toNat⟩ := by
    intro x hx _
    simpa using hx
  have hmain := fetch_selects_first_unique
    [⟨"data.json", (printJson j).map Char.toNat⟩]
    ⟨"data.json", (printJson j).map Char.toNat⟩ "url" hsize hfind huniq
  rw [show buildArchive j
    = tarEncode [⟨"data.json", (printJson j).map Char.toNat⟩] from rfl]
  rw [fetchPipeline, hmain]
  simp only [json_loads, map_ofNat_map_toNat, parseJsonChars_printJson]

/-- Witness for C1 at the JSON object with one field `a` mapped to 1. -/
theorem fetch_roundtrip_of_fits_w :
    (buildArchive (Json.obj [("a", Json.num 1)])).length ≤ CHUNK ∧
    fetchPipeline (buildArchive (Json.obj [("a", Json.num 1)]))
      = .ok (Json.obj [("a", Json.num 1)]) :=
  ⟨by decide, fetch_roundtrip_of_fits (Json.obj [("a", Json.num 1)]) (by decide)⟩

/-- Escaping is the identity on a run of `a` characters. -/
theorem escList_replicate (n : Nat) :
    escList (List.replicate n 'a') = List.replicate n 'a' := by
  induction n with
  | zero => rfl
  | succ k ih =>
    rw [List.replicate_succ, escList, ih,
        show escChar 'a' = [ 'a' ] from rfl, List.singleton_append,
        ← List.replicate_succ]

/-- Decoding the first chunk of an archive longer than one chunk fails:
the declared payload length exceeds what was buffered. -/
theorem tarDecode_truncated (ms : List TarMember)
    (hbig : CHUNK < (tarEncode ms).length)
    (hds : (natDigits 256
        ((encNat ms.length ++ (ms.map encMember).flatten).length)).length
      ≤ CHUNK - 3) :
    tarDecode ((tarEncode ms).take CHUNK) = none := by
  have hP1 : 1 ≤ (encNat ms.length ++ (ms.map encMember).flatten).length := by
    rw [encNat]
    simp
  have henc : tarEncode ms
      = [31, 139,
          (natDigits 256 ((encNat ms.length ++ (ms.map encMember).flatten).length)).length]
        ++ ((natDigits 256 ((encNat ms.length ++ (ms.map encMember).flatten).length))
            ++ (encNat ms.length ++ (ms.map encMember).flatten)) := by
    rw [tarEncode, encBlock, encNat]
    simp
  have hchunk3 : (3 : Nat) ≤ CHUNK := by
    rw [CHUNK]
    omega
  have htotal : (tarEncode ms).length
      = 3 + ((natDigits 256 ((encNat ms.length ++ (ms.map encMember).flatten).length)).length
          + (encNat ms.length ++ (ms.map encMember).flatten).length) := by
    rw [henc]
    simp [List.length_append]
    omega
  have hktake : (tarEncode ms).take CHUNK
      = [31, 139,
          (natDigits 256 ((encNat ms.length ++ (ms.map encMember).flatten).length)).length]
        ++ ((natDigits 256 ((encNat ms.length ++ (ms.map encMember).flatten).length))
            ++ ((encNat ms.length ++ (ms.map encMember).flatten).take
                (CHUNK - 3 - (natDigits 256
                  ((encNat ms.length ++ (ms.map encMember).flatten).length)).length))) := by
    rw [henc, List.take_append_eq_append_take]
    rw [List.take_of_length_le (by simp; omega)]
    rw [show ([31, 139,
        (natDigits 256 ((encNat ms.length ++ (ms.map encMember).flatten).length)).length]
        : List Nat).length = 3 from rfl]
    rw [List.take_append_eq_append_take]
    rw [List.take_of_length_le hds]
  have hPlen : CHUNK - 3 - (natDigits 256
        ((encNat ms.length ++ (ms.map encMember).flatten).length)).length
      < (encNat ms.length ++ (ms.map encMember).flatten).length := by
    omega
  rw [hktake]
  rw [show ([31, 139,
      (natDigits 256 ((encNat ms.length ++ (ms.map encMember).flatten).length)).length]
      : List Nat)
      ++ ((natDigits 256 ((encNat ms.length ++ (ms.map encMember).flatten).length))
          ++ ((encNat ms.length ++ (ms.map encMember).flatten).take
              (CHUNK - 3 - (natDigits 256
                ((encNat ms.length ++ (ms.map encMember).flatten).length)).length)))
    = 31 :: 139 ::
        ((natDigits 256 ((encNat ms.length ++ (ms.map encMember).flatten).length)).length
          :: ((natDigits 256 ((encNat ms.length ++ (ms.map encMember).flatten).length))
            ++ ((encNat ms.length ++ (ms.map encMember).flatten).take
                (CHUNK - 3 - (natDigits 256
                  ((encNat ms.length ++ (ms.map encMember).flatten).length)).length))))
    from by simp]
  have hdecn : decNat
      ((natDigits 256 ((encNat ms.length ++ (ms.map encMember).flatten).length)).length
        :: ((natDigits 256 ((encNat ms.length ++ (ms.map encMember).flatten).length))
          ++ ((encNat ms.length ++ (ms.map encMember).flatten).take
              (CHUNK - 3 - (natDigits 256
                ((encNat ms.length ++ (ms.map encMember).flatten).length)).length))))
      = some ((encNat ms.length ++ (ms.map encMember).flatten).length,
          (encNat ms.length ++ (ms.map encMember).flatten).take
            (CHUNK - 3 - (natDigits 256
              ((encNat ms.length ++ (ms.map encMember).flatten).length)).length)) := by
    rw [decNat]
    rw [if_pos (by simp [List.length_append])]
    rw [List.take_left, List.drop_left,
        valDigits_natDigits 256 _ (by omega)]
  have hlt : ¬ ((encNat ms.length ++ (ms.map encMember).flatten).length
      ≤ ((encNat ms.length ++ (ms.map encMember).flatten).take
          (CHUNK - 3 - (natDigits 256
            ((encNat ms.length ++ (ms.map encMember).flatten).length)).length)).length) := by
    rw [List.length_take]
    omega
  have hstep : tarDecode (31 :: 139 ::
      ((natDigits 256 ((encNat ms.length ++ (ms.map encMember).flatten).length)).length
        :: ((natDigits 256 ((encNat ms.length ++ (ms.map encMember).flatten).length))
          ++ ((encNat ms.length ++ (ms.map encMember).flatten).take
              (CHUNK - 3 - (natDigits 256
                ((encNat ms.length ++ (ms.map encMember).flatten).length)).length)))))
      = (match decBlock
          ((natDigits 256 ((encNat ms.length ++ (ms.map encMember).flatten).length)).length
            :: ((natDigits 256 ((encNat ms.length ++ (ms.map encMember).flatten).length))
              ++ ((encNat ms.length ++ (ms.map encMember).flatten).take
                  (CHUNK - 3 - (natDigits 256
                    ((encNat ms.length ++ (ms.map encMember).flatten).length)).length)))) with
        | some (payload, after) =>
          if after.isEmpty then
            match decNat payload with
            | some (count, body) => decMembers count body
            | none => none
          else none
        | none => none) := rfl
  rw [hstep]
  simp only [decBlock, hdecn, if_neg hlt]

/-- Payload length of the single-member archive holding 20002 content
bytes. -/
theorem bigPayload_len (c0 : List Nat) (hc0 : c0.length = 20002) :
    (encNat ([(⟨"data.json", c0⟩ : TarMember)] : List TarMember).length
      ++ (([(⟨"data.json", c0⟩ : TarMember)] : List TarMember).map encMember).flatten).length
      = 20018 := by
  have hname : (("data.json").data.map Char.toNat).length = 9 := by decide
  have hmem : (encMember ⟨"data.json", c0⟩).length = 20016 := by
    show (encBlock ("data.json".data.map Char.toNat) ++ encBlock c0).length = 20016
    rw [List.length_append, encBlock, List.length_append, encNat,
        List.length_cons, encBlock, List.length_append, encNat,
        List.length_cons, hname, hc0,
        show (natDigits 256 9).length = 1 from by decide,
        show (natDigits 256 20002).length = 2 from by decide]
  rw [show ([(⟨"data.json", c0⟩ : TarMember)] : List TarMember).length = 1 from rfl]
  rw [List.length_append]
  rw [show (([(⟨"data.json", c0⟩ : TarMember)] : List TarMember).map encMember).flatten
    = encMember ⟨"data.json", c0⟩ ++ [] from rfl]
  rw [List.length_append, hmem]
  rw [show (encNat 1).length = 2 from by decide]
  rfl

/-- Total length of the single-member archive holding 20002 content
bytes. -/
theorem bigArchive_len (c0 : List Nat) (hc0 : c0.length = 20002) :
    (tarEncode [⟨"data.json", c0⟩]).length = 20023 := by
  rw [tarEncode, List.length_cons, List.length_cons, encBlock,
      List.length_append, encNat, List.length_cons, bigPayload_len c0 hc0,
      show (natDigits 256 20018).length = 2 from by decide]

/-- Claim C1 (counterexample): for the JSON string of 20000 `a`
characters, the single-member archive is 20023 bytes - larger than one
read chunk - and the pipeline fails with a FormatError instead of
returning the original value: the code starts parsing after buffering
only the first 16384 bytes. -/
theorem fetch_roundtrip_fails_large :
    fetchPipeline (buildArchive (Json.str (String.mk (List.replicate 20000 'a'))))
      = .error .formatError ∧
    ¬ (fetchPipeline (buildArchive (Json.str (String.mk (List.replicate 20000 'a'))))
        = .ok (Json.str (String.mk (List.replicate 20000 'a')))) := by
  have hprint : printJson (Json.str (String.mk (List.replicate 20000 'a')))
      = '"' :: List.replicate 20000 'a' ++ [ '"' ] := by
    rw [printJson]
    rw [show (String.mk (List.replicate 20000 'a')).data
      = List.replicate 20000 'a' from rfl]
    rw [escList_replicate]
  have hclen : ((printJson (Json.str
      (String.mk (List.replicate 20000 'a')))).map Char.toNat).length = 20002 := by
    rw [hprint, List.length_map]
    simp only [List.length_cons, List.length_append, List.length_replicate,
      List.length_nil]
    try omega
  have harch := bigArchive_len _ hclen
  have hbig : CHUNK < (tarEncode [⟨"data.json",
      (printJson (Json.str (String.mk (List.replicate 20000 'a')))).map
        Char.toNat⟩]).length := by
    rw [harch, CHUNK]
    omega
  have hds : (natDigits 256 ((encNat ([⟨"data.json",
      (printJson (Json.str (String.mk (List.replicate 20000 'a')))).map
        Char.toNat⟩] : List TarMember).length
      ++ (([⟨"data.json",
      (printJson (Json.str (String.mk (List.replicate 20000 'a')))).map
        Char.toNat⟩] : List TarMember).map encMember).flatten).length)).length
      ≤ CHUNK - 3 := by
    rw [bigPayload_len _ hclen]
    rw [show (natDigits 256 20018).length = 2 from by decide, CHUNK]
    omega
  have hdec := tarDecode_truncated [⟨"data.json",
      (printJson (Json.str (String.mk (List.replicate 20000 'a')))).map
        Char.toNat⟩] hbig hds
  have hne : (((tarEncode [⟨"data.json",
      (printJson (Json.str (String.mk (List.replicate 20000 'a')))).map
        Char.toNat⟩]).take CHUNK)).isEmpty = false := by
    cases h2 : (((tarEncode [⟨"data.json",
        (printJson (Json.str (String.mk (List.replicate 20000 'a')))).map
          Char.toNat⟩]).take CHUNK)).isEmpty with
    | false => rfl
    | true =>
      have h3 := congrArg List.length (List.isEmpty_iff.mp h2)
      rw [List.length_take, harch, CHUNK] at h3
      simp at h3
  have hfetch := fetch_parse_first_chunk
    (fun _ => .ok (tarEncode [⟨"data.json",
      (printJson (Json.str (String.mk (List.replicate 20000 'a')))).map
        Char.toNat⟩])) "url"
    (tarEncode [⟨"data.json",
      (printJson (Json.str (String.mk (List.replicate 20000 'a')))).map
        Char.toNat⟩]) rfl hne hdec
  have hres : (fetch_tar_file_data (fun _ => .ok (tarEncode [⟨"data.json",
      (printJson (Json.str (String.mk (List.replicate 20000 'a')))).map
        Char.toNat⟩])) "url").1 = .error .formatError := by
    rw [hfetch]
  have hmain2 : fetchPipeline (buildArchive
      (Json.str (String.mk (List.replicate 20000 'a')))) = .error .formatError := by
    rw [show buildArchive (Json.str (String.mk (List.replicate 20000 'a')))
      = tarEncode [⟨"data.json",
        (printJson (Json.str (String.mk (List.replicate 20000 'a')))).map
          Char.toNat⟩] from rfl]
    simp only [fetchPipeline, hres]
  refine ⟨hmain2, ?_⟩
  intro hcontra
  rw [hmain2] at hcontra
  exact Except.noConfusion hcontra
